import Mathlib

/-!
# Verification of the duna-draw-api figlet service (`src/main.py`)

A shallow embedding of the pure parts of `src/main.py`: the `justify_text`
helper (built on Python's `str.center` / `str.rjust` / `str.ljust`), the
`generate_ascii` endpoint body (including its `try/except` wrapper), the
`list_fonts` endpoint, and the `random_art` endpoint.

Strings that carry text content are embedded as `List Char`; font names stay
`String`.  Python `int` widths are embedded as `Int` (Python's `width` field is
an unconstrained `Optional[int]` defaulting to 80, so negatives are allowed).

The third-party rendering engine `pyfiglet.figlet_format` is not part of the
repository; where a claim needs a concrete engine it is modelled from the
specification (see `figlet_format` below), and endpoint theorems are otherwise
stated for an arbitrary engine.
-/

set_option autoImplicit false

namespace DunaDraw

/-- Python `text.split('\n')`: splits on every newline, so the result always
has at least one element, and `"".split('\n') = [""]`. -/
def splitLines : List Char → List (List Char)
  | [] => [[]]
  | c :: cs =>
    match splitLines cs with
    | [] => [[]]
    | l :: ls => if c = '\n' then [] :: l :: ls else (c :: l) :: ls

/-- Python `'\n'.join(lines)`. -/
def joinLines : List (List Char) → List Char
  | [] => []
  | [l] => l
  | l :: ls => l ++ '\n' :: joinLines ls

/-- Python `line.center(width)` (CPython `unicode_center_impl`): returns the
string unchanged when `len(line) >= width`; otherwise pads with spaces, the
left padding being `marg / 2 + (marg & width & 1)` where `marg` is the total
padding.  (So the extra cell of an odd padding goes left exactly when `width`
is odd.) -/
def strCenter (line : List Char) (width : Int) : List Char :=
  if (line.length : Int) ≥ width then line
  else
    let marg := (width - (line.length : Int)).toNat
    let left := marg / 2 + (if marg % 2 = 1 ∧ width % 2 = 1 then 1 else 0)
    List.replicate left ' ' ++ line ++ List.replicate (marg - left) ' '

/-- Python `line.rjust(width)`: right-aligns by left-padding with spaces;
unchanged when `len(line) >= width`. -/
def strRJust (line : List Char) (width : Int) : List Char :=
  if (line.length : Int) ≥ width then line
  else List.replicate (width - (line.length : Int)).toNat ' ' ++ line

/-- Python `line.ljust(width)`: left-aligns by right-padding with spaces;
unchanged when `len(line) >= width`. -/
def strLJust (line : List Char) (width : Int) : List Char :=
  if (line.length : Int) ≥ width then line
  else line ++ List.replicate (width - (line.length : Int)).toNat ' '

/-- The body of the `for line in lines` loop of `justify_text` in
`src/main.py`: `center` and `right` dispatch on the alignment string and
anything else falls through to the `else` (left) branch. -/
def justify_line (alignment : String) (width : Int) (line : List Char) :
    List Char :=
  if alignment = "center" then strCenter line width
  else if alignment = "right" then strRJust line width
  else strLJust line width

/-- `justify_text` from `src/main.py`: split on newlines, justify each line,
join with newlines. -/
def justify_text (text : List Char) (width : Int) (alignment : String) :
    List Char :=
  joinLines ((splitLines text).map (justify_line alignment width))

/-- The pydantic `FigletRequest` model of `src/main.py` with its defaults.
`text: str` accepts any string, including the empty one; `width` and `justify`
carry no constraints beyond their types. -/
structure FigletRequest where
  text : List Char
  font : String := "standard"
  width : Int := 80
  justify : String := "center"
deriving DecidableEq

/-- The JSON object built by the `generate_ascii` handler on success:
`ascii_art`, `font_used` and the four `metadata` entries. -/
structure FigletResponseData where
  ascii_art : List Char
  font_used : String
  meta_original_text : List Char
  meta_width : Int
  meta_alignment : String
  meta_line_count : Nat
deriving DecidableEq

/-- The outcome of an HTTP endpoint: a JSON body, or an `HTTPException`
surfaced to the framework as a status code plus detail string. -/
inductive HTTPResult (α : Type) where
  | ok (body : α)
  | error (status : Nat) (detail : String)
deriving DecidableEq

/-- A Python exception live inside the `try` block of `generate_ascii`: either
the `HTTPException` raised for an unknown font, or an exception escaping the
rendering engine. -/
inductive PyExc where
  | http (status : Nat) (detail : String)
  | engine (msg : String)

/-- `str(e)` on a caught exception; modelled as returning the exception's
message text (the status code of an `HTTPException` is not part of it). -/
def pyStr : PyExc → String
  | .http _ d => d
  | .engine m => m

/-- The `detail` f-string of the 400 `HTTPException` in `generate_ascii`:
`f"Font not found. Available fonts: {available_fonts[:5]}... ({len(available_fonts)} total)"`. -/
def fontNotFoundMsg (fonts : List String) : String :=
  "Font not found. Available fonts: " ++ toString (fonts.take 5)
    ++ "... (" ++ toString fonts.length ++ " total)"

/-- The `generate_ascii` handler of `src/main.py`, parameterised by the list
returned by `FigletFont.getFonts()` and by the rendering engine
(`pyfiglet.figlet_format`, which may raise).  The whole body runs inside
`try: ... except Exception as e: raise HTTPException(status_code=500,
detail=str(e))`, so every exception raised inside — including the
`HTTPException(status_code=400, ...)` for an unknown font — reaches the
caller as a 500. -/
def generate_ascii (fonts : List String)
    (figlet : List Char → String → Int → Except String (List Char))
    (req : FigletRequest) : HTTPResult FigletResponseData :=
  let inner : Except PyExc FigletResponseData :=
    if req.font ∉ fonts then
      .error (.http 400 (fontNotFoundMsg fonts))
    else
      match figlet req.text req.font req.width with
      | .error m => .error (.engine m)
      | .ok art =>
        let ascii_art := justify_text art req.width req.justify
        .ok { ascii_art := ascii_art
              font_used := req.font
              meta_original_text := req.text
              meta_width := req.width
              meta_alignment := req.justify
              meta_line_count := (splitLines ascii_art).length }
  match inner with
  | .ok r => .ok r
  | .error e => .error 500 (pyStr e)

/-- The body of the `list_fonts` endpoint of `src/main.py`. -/
structure FontListResponse where
  fonts : List String
  count : Nat
deriving DecidableEq

/-- The `list_fonts` handler: `fonts = FigletFont.getFonts()`, `count =
len(fonts)`. -/
def list_fonts (fonts : List String) : FontListResponse :=
  { fonts := fonts, count := fonts.length }

/-- Modelled from the spec: a Font (spec §3) — a fixed glyph height, a
hard-blank sentinel character, and a mapping from character to glyph (one row
string per height row).  The `pyfiglet` font data itself is not part of this
repository. -/
structure Font where
  height : Nat
  hardblank : Char
  glyphs : Char → Option (List (List Char))

/-- Modelled from the spec: glyph composition (spec §4.2 step 3) — each of the
`height` output rows of a logical line is the concatenation, across the line's
characters, of that row of each character's glyph; characters without a glyph
are silently omitted (the policy the source inherits from `pyfiglet`). -/
def composeLine (f : Font) (line : List Char) : List (List Char) :=
  (List.range f.height).map (fun r =>
    line.foldr (fun c acc =>
      (match f.glyphs c with
       | some g => g.getD r []
       | none => []) ++ acc) [])

/-- Modelled from the spec: hard-blank replacement (spec §4.2 step 4). -/
def replaceHardblank (hb : Char) (row : List Char) : List Char :=
  row.map (fun c => if c = hb then ' ' else c)

/-- Modelled from the spec: the third-party rendering engine
`pyfiglet.figlet_format(text, font, width)`, absent from `src/` and replaced
per spec §4.2/§9 by explicit glyph composition over a catalog — split `text`
on newlines, compose each logical line into `height` rows, replace hard
blanks, concatenate all rows in order; `width` never wraps, truncates or
fails (spec §9's conservative policy).  An unknown font raises. -/
def figlet_format (catalog : List (String × Font)) (text : List Char)
    (font : String) (_width : Int) : Except String (List Char) :=
  match catalog.lookup font with
  | none => .error "FontNotFound"
  | some f =>
    let rows := (splitLines text).flatMap
      (fun line => (composeLine f line).map (replaceHardblank f.hardblank))
    .ok (joinLines rows)

/-- A one-row demo font whose glyph for every character is the character
itself; used to instantiate the endpoint theorems on concrete inputs. -/
def fontStd : Font :=
  { height := 1, hardblank := '$', glyphs := fun c => some [[c]] }

/-- A one-row demo font rendering every character doubled; its output differs
from `fontStd`'s on every non-empty line. -/
def fontDouble : Font :=
  { height := 1, hardblank := '$', glyphs := fun c => some [[c, c]] }

/-- A concrete single-font catalog for witnesses. -/
def demoCatalog : List (String × Font) := [("standard", fontStd)]

/-- The font names of `demoCatalog`. -/
def demoFonts : List String := ["standard"]

/-- A concrete two-font catalog for the random-endpoint analysis. -/
def demoCatalog2 : List (String × Font) :=
  [("alpha", fontStd), ("beta", fontDouble)]

/-- The font names of `demoCatalog2`. -/
def demoFonts2 : List String := ["alpha", "beta"]

/-- The `sample_texts` list of the `random_art` handler. -/
def sample_texts : List (List Char) :=
  [['H', 'e', 'l', 'l', 'o', ' ', 'W', 'o', 'r', 'l', 'd'],
   ['A', 'S', 'C', 'I', 'I', ' ', 'R', 'o', 'c', 'k', 's'],
   ['P', 'y', 'F', 'i', 'g', 'l', 'e', 't'],
   ['N', 'e', 'x', 'i', 'o', 's'],
   ['M', 'a', 'k', 'e', ' ', 'A', 'r', 't']]

/-- Python `random.choice(l)`, the random draw made explicit: the caller
supplies the draw `i` and the pick is `l[i % len(l)]` (`dflt` only covers the
empty list, on which `choice` would raise). -/
def pyChoice {α : Type} (l : List α) (i : Nat) (dflt : α) : α :=
  l.getD (i % l.length) dflt

/-- The JSON object built by the `random_art` handler: `ascii_art`,
`font_used`, and a `metadata` holding only a note. -/
structure RandomResponseData where
  ascii_art : List Char
  font_used : String
  meta_note : String
deriving DecidableEq

/-- The `random_art` handler of `src/main.py`, its three `choice` calls made
explicit in source evaluation order: draw `i` picks the text, draw `j` picks
the font passed to `figlet_format`, draw `k` picks the font reported as
`font_used`.  `figlet_format` is called without `width`, whose `pyfiglet`
default is 80.  The handler has no `try/except`: an engine exception
propagates. -/
def random_art (fonts : List String)
    (figlet : List Char → String → Int → Except String (List Char))
    (i j k : Nat) : Except String RandomResponseData :=
  let text := pyChoice sample_texts i []
  let fontRender := pyChoice fonts j ""
  let fontReport := pyChoice fonts k ""
  match figlet text fontRender 80 with
  | .error m => .error m
  | .ok art =>
    .ok { ascii_art := art
          font_used := fontReport
          meta_note := "Randomly generated" }

deriving instance DecidableEq for Except

/-! ### Lemmas about `splitLines` and `joinLines` -/

theorem splitLines_cons_eq (c : Char) (cs : List Char) {m : List Char}
    {ms : List (List Char)} (h : splitLines cs = m :: ms) :
    splitLines (c :: cs) = if c = '\n' then [] :: m :: ms else (c :: m) :: ms := by
  unfold splitLines
  rw [h]

theorem splitLines_ne_nil : ∀ s : List Char, splitLines s ≠ []
  | [] => by simp [splitLines]
  | c :: cs => by
    have ih := splitLines_ne_nil cs
    cases h : splitLines cs with
    | nil => exact absurd h ih
    | cons m ms =>
      rw [splitLines_cons_eq c cs h]
      split <;> simp

theorem mem_splitLines_no_newline :
    ∀ (s : List Char), ∀ l ∈ splitLines s, '\n' ∉ l := by
  intro s
  induction s with
  | nil =>
    intro l hl
    simp [splitLines] at hl
    simp [hl]
  | cons c cs ih =>
    intro l hl
    cases h : splitLines cs with
    | nil => exact absurd h (splitLines_ne_nil cs)
    | cons m ms =>
      rw [splitLines_cons_eq c cs h] at hl
      by_cases hc : c = '\n'
      · rw [if_pos hc] at hl
        rcases List.mem_cons.mp hl with rfl | hl
        · simp
        · exact ih l (h ▸ hl)
      · rw [if_neg hc] at hl
        rcases List.mem_cons.mp hl with rfl | hl
        · have hm : '\n' ∉ m := ih m (h ▸ List.mem_cons_self m ms)
          intro habs
          rcases List.mem_cons.mp habs with he | he
          · exact hc he.symm
          · exact hm he
        · exact ih l (h ▸ List.mem_cons_of_mem m hl)

theorem splitLines_single {l : List Char} (h : '\n' ∉ l) : splitLines l = [l] := by
  induction l with
  | nil => rfl
  | cons c cs ih =>
    have hc : c ≠ '\n' := fun habs => h (habs ▸ List.mem_cons_self c cs)
    have hcs : '\n' ∉ cs := fun habs => h (List.mem_cons_of_mem c habs)
    rw [splitLines_cons_eq c cs (ih hcs), if_neg hc]

theorem splitLines_append_cons {l : List Char} (rest : List Char)
    (h : '\n' ∉ l) : splitLines (l ++ '\n' :: rest) = l :: splitLines rest := by
  induction l with
  | nil =>
    show splitLines ('\n' :: rest) = [] :: splitLines rest
    cases hr : splitLines rest with
    | nil => exact absurd hr (splitLines_ne_nil rest)
    | cons m ms =>
      rw [splitLines_cons_eq '\n' rest hr, if_pos rfl]
  | cons c cs ih =>
    have hc : c ≠ '\n' := fun habs => h (habs ▸ List.mem_cons_self c cs)
    have hcs : '\n' ∉ cs := fun habs => h (List.mem_cons_of_mem c habs)
    show splitLines (c :: (cs ++ '\n' :: rest)) = _
    rw [splitLines_cons_eq c _ (ih hcs), if_neg hc]

theorem splitLines_joinLines :
    ∀ {ls : List (List Char)}, ls ≠ [] → (∀ l ∈ ls, '\n' ∉ l) →
      splitLines (joinLines ls) = ls
  | [], h, _ => absurd rfl h
  | [l], _, hnl => by
    rw [show joinLines [l] = l from rfl]
    exact splitLines_single (hnl l (List.mem_cons_self l []))
  | l :: m :: ls, _, hnl => by
    rw [show joinLines (l :: m :: ls) = l ++ '\n' :: joinLines (m :: ls) from rfl,
      splitLines_append_cons _ (hnl l (List.mem_cons_self l _)),
      splitLines_joinLines (by simp) (fun x hx => hnl x (List.mem_cons_of_mem l hx))]

/-! ### Lemmas about justification of a single row -/

theorem justify_line_of_ge {width : Int} {line : List Char}
    (h : width ≤ (line.length : Int)) (alignment : String) :
    justify_line alignment width line = line := by
  have hge : (line.length : Int) ≥ width := h
  unfold justify_line strCenter strRJust strLJust
  by_cases hc : alignment = "center"
  · rw [if_pos hc, if_pos hge]
  · rw [if_neg hc]
    by_cases hr : alignment = "right"
    · rw [if_pos hr, if_pos hge]
    · rw [if_neg hr, if_pos hge]

theorem strLJust_length (line : List Char) (width : Int) :
    ((strLJust line width).length : Int) = max width (line.length : Int) := by
  unfold strLJust
  by_cases h : (line.length : Int) ≥ width
  · rw [if_pos h]
    omega
  · rw [if_neg h]
    simp only [List.length_append, List.length_replicate]
    omega

theorem strRJust_length (line : List Char) (width : Int) :
    ((strRJust line width).length : Int) = max width (line.length : Int) := by
  unfold strRJust
  by_cases h : (line.length : Int) ≥ width
  · rw [if_pos h]
    omega
  · rw [if_neg h]
    simp only [List.length_append, List.length_replicate]
    omega

theorem strCenter_length (line : List Char) (width : Int) :
    ((strCenter line width).length : Int) = max width (line.length : Int) := by
  unfold strCenter
  by_cases h : (line.length : Int) ≥ width
  · rw [if_pos h]
    omega
  · rw [if_neg h]
    by_cases hp : (width - (line.length : Int)).toNat % 2 = 1 ∧ width % 2 = 1
    · simp only [if_pos hp, List.length_append, List.length_replicate]
      omega
    · simp only [if_neg hp, List.length_append, List.length_replicate]
      omega

theorem justify_line_length (alignment : String) (width : Int) (line : List Char) :
    ((justify_line alignment width line).length : Int)
      = max width (line.length : Int) := by
  unfold justify_line
  by_cases hc : alignment = "center"
  · rw [if_pos hc]
    exact strCenter_length line width
  · rw [if_neg hc]
    by_cases hr : alignment = "right"
    · rw [if_pos hr]
      exact strRJust_length line width
    · rw [if_neg hr]
      exact strLJust_length line width

theorem justify_line_idem (alignment : String) (width : Int) (line : List Char) :
    justify_line alignment width (justify_line alignment width line)
      = justify_line alignment width line :=
  justify_line_of_ge
    (by rw [justify_line_length]; exact le_max_left _ _) alignment

theorem mem_justify_line {c : Char} {alignment : String} {width : Int}
    {line : List Char} (h : c ∈ justify_line alignment width line) :
    c ∈ line ∨ c = ' ' := by
  unfold justify_line strCenter strRJust strLJust at h
  repeat' split at h
  all_goals try simp only [List.mem_append, List.mem_replicate] at h
  all_goals tauto

theorem justify_line_no_newline {line : List Char} (h : '\n' ∉ line)
    (alignment : String) (width : Int) :
    '\n' ∉ justify_line alignment width line := by
  intro habs
  rcases mem_justify_line habs with hm | hm
  · exact h hm
  · exact absurd hm (by decide)

theorem splitLines_justify_text (text : List Char) (width : Int)
    (alignment : String) :
    splitLines (justify_text text width alignment)
      = (splitLines text).map (justify_line alignment width) := by
  unfold justify_text
  refine splitLines_joinLines ?_ ?_
  · simpa using splitLines_ne_nil text
  · intro l hl
    rcases List.mem_map.mp hl with ⟨m, hm, rfl⟩
    exact justify_line_no_newline (mem_splitLines_no_newline text m hm)
      alignment width

/-! ### Claim theorems -/

/-- C4 (counterexample): centering the 2-cell row `ab` to width 5 yields
`"  ab "` — the extra cell of the odd padding is on the LEFT, not on the right
as the claim states (CPython's `str.center` puts it left whenever the target
width is odd). -/
theorem center_extra_left_cex :
    justify_line "center" 5 ['a', 'b'] = [' ', ' ', 'a', 'b', ' ']
    ∧ justify_line "center" 5 ['a', 'b'] ≠ [' ', 'a', 'b', ' ', ' '] := by
  constructor
  · rfl
  · decide

/-- C4 (amended): for a row shorter than the target width, `center` pads it to
exactly the target width with spaces split around the row; when the total
padding is odd, the extra cell goes to the right when the target width is
even, and to the left when the target width is odd. -/
theorem center_padding_parity (row : List Char) (width : Int)
    (h : (row.length : Int) < width) :
    ∃ l r, justify_line "center" width row
        = List.replicate l ' ' ++ row ++ List.replicate r ' '
      ∧ (l : Int) + r + row.length = width
      ∧ (l = r ∨ (width % 2 = 0 ∧ r = l + 1) ∨ (width % 2 = 1 ∧ l = r + 1)) := by
  have hide : justify_line "center" width row
      = List.replicate ((width - (row.length : Int)).toNat / 2
          + (if (width - (row.length : Int)).toNat % 2 = 1 ∧ width % 2 = 1
             then 1 else 0)) ' '
        ++ row
        ++ List.replicate ((width - (row.length : Int)).toNat
          - ((width - (row.length : Int)).toNat / 2
          + (if (width - (row.length : Int)).toNat % 2 = 1 ∧ width % 2 = 1
             then 1 else 0))) ' ' := by
    unfold justify_line strCenter
    rw [if_pos rfl, if_neg (by omega)]
  rw [hide]
  by_cases hp : (width - (row.length : Int)).toNat % 2 = 1 ∧ width % 2 = 1
  · rw [if_pos hp]
    refine ⟨_, _, rfl, by omega, by omega⟩
  · rw [if_neg hp]
    refine ⟨_, _, rfl, by omega, by omega⟩

/-- C4 witness: the amended theorem at row `a`, width 4 (even): padding splits
1 left, 2 right. -/
theorem center_padding_parity_witness :
    (((['a'] : List Char).length : Int) < 4)
    ∧ ∃ l r, justify_line "center" 4 ['a']
        = List.replicate l ' ' ++ ['a'] ++ List.replicate r ' '
      ∧ (l : Int) + r + (['a'] : List Char).length = 4
      ∧ (l = r ∨ ((4 : Int) % 2 = 0 ∧ r = l + 1) ∨ ((4 : Int) % 2 = 1 ∧ l = r + 1)) :=
  ⟨by decide, center_padding_parity ['a'] 4 (by decide)⟩

/-- C5: `justify_text` is idempotent — re-justifying an already-justified text
at the same width and mode (left, center or right) returns it unchanged,
because every line of the first pass has length at least the target width. -/
theorem justify_text_idempotent (text : List Char) (width : Int) (mode : String)
    (hmode : mode = "left" ∨ mode = "center" ∨ mode = "right") :
    justify_text (justify_text text width mode) width mode
      = justify_text text width mode := by
  have hsplit := splitLines_justify_text text width mode
  show joinLines ((splitLines (justify_text text width mode)).map
      (justify_line mode width)) = _
  rw [hsplit, List.map_map,
    show justify_line mode width ∘ justify_line mode width
        = justify_line mode width from funext (justify_line_idem mode width)]
  rfl

/-- C5 witness: the idempotence theorem at `"hi"`, width 6, mode `center`. -/
theorem justify_text_idempotent_witness :
    (("center" : String) = "left" ∨ ("center" : String) = "center"
      ∨ ("center" : String) = "right")
    ∧ justify_text (justify_text ['h', 'i'] 6 "center") 6 "center"
      = justify_text ['h', 'i'] 6 "center" :=
  ⟨Or.inr (Or.inl rfl),
   justify_text_idempotent ['h', 'i'] 6 "center" (Or.inr (Or.inl rfl))⟩

/-- C6: a row whose length already exceeds the target width is returned
unchanged (hence with its length unchanged — no truncation) by every one of
the three justification modes. -/
theorem justify_overlong_unchanged (row : List Char) (width : Int)
    (mode : String) (hlen : width < (row.length : Int))
    (hmode : mode = "left" ∨ mode = "center" ∨ mode = "right") :
    justify_line mode width row = row :=
  justify_line_of_ge (le_of_lt hlen) mode

/-- C6 witness: the pass-through theorem at row `abc`, width 2, mode
`center`. -/
theorem justify_overlong_unchanged_witness :
    ((2 : Int) < ((['a', 'b', 'c'] : List Char).length : Int))
    ∧ justify_line "center" 2 ['a', 'b', 'c'] = ['a', 'b', 'c'] :=
  ⟨by decide,
   justify_overlong_unchanged ['a', 'b', 'c'] 2 "center" (by decide)
     (Or.inr (Or.inl rfl))⟩

/-- C10: for every text, width and alignment string (unrecognized ones fall
through to the left branch), `justify_text` keeps the number of lines, and
each output line's length is `max width (input line length)`. -/
theorem justify_text_line_lengths (text : List Char) (width : Int)
    (alignment : String) :
    (splitLines (justify_text text width alignment)).length
        = (splitLines text).length
    ∧ (splitLines (justify_text text width alignment)).map
          (fun l => (l.length : Int))
        = (splitLines text).map (fun l => max width (l.length : Int)) := by
  rw [splitLines_justify_text]
  refine ⟨by simp, ?_⟩
  rw [List.map_map]
  congr 1
  funext l
  exact justify_line_length alignment width l

/-- Any alignment string other than `center` and `right` falls through to the
`else` branch of `justify_line`, i.e. behaves exactly like `left`. -/
theorem justify_line_default {a : String} (hc : a ≠ "center") (hr : a ≠ "right")
    (width : Int) (line : List Char) :
    justify_line a width line = justify_line "left" width line := by
  unfold justify_line
  rw [if_neg hc, if_neg hr, if_neg (show ("left" : String) ≠ "center" by decide),
    if_neg (show ("left" : String) ≠ "right" by decide)]

/-- `justify_text` with an unrecognized alignment equals `justify_text` with
`left`. -/
theorem justify_text_default {a : String} (hc : a ≠ "center") (hr : a ≠ "right")
    (width : Int) (text : List Char) :
    justify_text text width a = justify_text text width "left" := by
  unfold justify_text
  rw [show justify_line a width = justify_line "left" width from
    funext (justify_line_default hc hr width)]

/-- C1: a request naming a font outside the catalog never produces (even
partial) output — but it reaches the caller as a 500, not the 400 the code
tries to raise: the `HTTPException(status_code=400, ...)` is raised inside the
`try` block and the blanket `except Exception` re-raises it with
`status_code=500`.  This holds for every engine and every request. -/
theorem generate_ascii_unknown_font_500 (fonts : List String)
    (figlet : List Char → String → Int → Except String (List Char))
    (req : FigletRequest) (h : req.font ∉ fonts) :
    generate_ascii fonts figlet req
      = .error 500 (fontNotFoundMsg fonts) := by
  unfold generate_ascii
  rw [if_pos h]
  rfl

/-- C1 witness: the unknown-font theorem at font `nope` against the demo
catalog. -/
theorem generate_ascii_unknown_font_500_witness :
    ("nope" : String) ∉ demoFonts
    ∧ generate_ascii demoFonts (figlet_format demoCatalog)
        { text := ['H', 'i'], font := "nope", width := 80, justify := "center" }
      = .error 500 (fontNotFoundMsg demoFonts) :=
  ⟨by decide,
   generate_ascii_unknown_font_500 demoFonts (figlet_format demoCatalog)
     { text := ['H', 'i'], font := "nope", width := 80, justify := "center" }
     (by decide)⟩

/-- C2 (counterexample): `render("", "standard", 80, "center")` does not fail
with a `ValidationError` — pydantic's `text: str` accepts the empty string,
the render succeeds, and the endpoint returns a 200 body whose `ascii_art` is
a single line of 80 spaces. -/
theorem generate_ascii_empty_text_cex :
    generate_ascii demoFonts (figlet_format demoCatalog)
      { text := [], font := "standard", width := 80, justify := "center" }
    = .ok { ascii_art := List.replicate 80 ' '
            font_used := "standard"
            meta_original_text := []
            meta_width := 80
            meta_alignment := "center"
            meta_line_count := 1 } := by
  decide

/-- C2 (amended): rendering the empty string with font `standard`, width 80
and `center` succeeds (no crash, no error): the response carries one line of
80 spaces and `line_count = 1`. -/
theorem generate_ascii_empty_text_blank_ok :
    ∃ r, generate_ascii demoFonts (figlet_format demoCatalog)
        { text := [], font := "standard", width := 80, justify := "center" }
      = .ok r
      ∧ r.ascii_art = List.replicate 80 ' '
      ∧ r.meta_line_count = 1 :=
  ⟨{ ascii_art := List.replicate 80 ' '
     font_used := "standard"
     meta_original_text := []
     meta_width := 80
     meta_alignment := "center"
     meta_line_count := 1 },
   by decide, rfl, rfl⟩

/-- C3 (counterexample): a request with the unrecognized justification mode
`up` is not rejected: no validation runs, glyph composition proceeds and the
render succeeds with output (`Hi` left-justified to width 80) — refuting
"fails fast before glyph composition begins, producing no output". -/
theorem generate_ascii_bad_justify_cex :
    generate_ascii demoFonts (figlet_format demoCatalog)
      { text := ['H', 'i'], font := "standard", width := 80, justify := "up" }
    = .ok { ascii_art := ['H', 'i'] ++ List.replicate 78 ' '
            font_used := "standard"
            meta_original_text := ['H', 'i']
            meta_width := 80
            meta_alignment := "up"
            meta_line_count := 1 } := by
  decide

/-- C3 (amended): the code validates neither `width` nor `justify`.  For every
request whose font is in the catalog and whose engine call returns output —
whatever the width, including non-positive ones — an unrecognized
justification mode falls through to left-justification and the render
succeeds. -/
theorem generate_ascii_no_justify_validation (fonts : List String)
    (figlet : List Char → String → Int → Except String (List Char))
    (req : FigletRequest) (art : List Char)
    (hf : req.font ∈ fonts)
    (he : figlet req.text req.font req.width = .ok art)
    (hc : req.justify ≠ "center") (hr : req.justify ≠ "right") :
    generate_ascii fonts figlet req
      = .ok { ascii_art := justify_text art req.width "left"
              font_used := req.font
              meta_original_text := req.text
              meta_width := req.width
              meta_alignment := req.justify
              meta_line_count :=
                (splitLines (justify_text art req.width "left")).length } := by
  unfold generate_ascii
  rw [if_neg (not_not_intro hf), he]
  dsimp only
  rw [justify_text_default hc hr]

/-- C3 witness: the no-validation theorem at justify `bogus`, width 80. -/
theorem generate_ascii_no_justify_validation_witness :
    ("standard" : String) ∈ demoFonts
    ∧ figlet_format demoCatalog ['H', 'i'] "standard" 80 = .ok ['H', 'i']
    ∧ ("bogus" : String) ≠ "center"
    ∧ ("bogus" : String) ≠ "right"
    ∧ generate_ascii demoFonts (figlet_format demoCatalog)
        { text := ['H', 'i'], font := "standard", width := 80, justify := "bogus" }
      = .ok { ascii_art := justify_text ['H', 'i'] 80 "left"
              font_used := "standard"
              meta_original_text := ['H', 'i']
              meta_width := 80
              meta_alignment := "bogus"
              meta_line_count :=
                (splitLines (justify_text ['H', 'i'] 80 "left")).length } :=
  ⟨by decide, rfl, by decide, by decide,
   generate_ascii_no_justify_validation demoFonts (figlet_format demoCatalog)
     { text := ['H', 'i'], font := "standard", width := 80, justify := "bogus" }
     ['H', 'i'] (by decide) rfl (by decide) (by decide)⟩

/-- A name listed among an association list's keys has a lookup result. -/
theorem lookup_some_of_mem_keys {catalog : List (String × Font)} {name : String}
    (h : name ∈ catalog.map Prod.fst) :
    ∃ f, catalog.lookup name = some f := by
  induction catalog with
  | nil => simp at h
  | cons p ps ih =>
    obtain ⟨k, v⟩ := p
    rw [List.map_cons, List.mem_cons] at h
    by_cases he : name = k
    · exact ⟨v, by simp [List.lookup, he]⟩
    · rcases h with h | h
      · exact absurd h he
      · rcases ih h with ⟨f, hf⟩
        exact ⟨f, by simp [List.lookup, beq_eq_false_iff_ne.mpr he, hf]⟩

/-- The success path of `generate_ascii`: when the font is in the catalog and
the engine returns `art`, the response carries the justified art, echoes the
request fields, and sets `line_count` to the number of lines of the justified
art. -/
theorem generate_ascii_ok_shape (fonts : List String)
    (figlet : List Char → String → Int → Except String (List Char))
    (req : FigletRequest) (art : List Char)
    (hf : req.font ∈ fonts)
    (he : figlet req.text req.font req.width = .ok art) :
    generate_ascii fonts figlet req
      = .ok { ascii_art := justify_text art req.width req.justify
              font_used := req.font
              meta_original_text := req.text
              meta_width := req.width
              meta_alignment := req.justify
              meta_line_count :=
                (splitLines (justify_text art req.width req.justify)).length } := by
  unfold generate_ascii
  rw [if_neg (not_not_intro hf), he]

/-- C7: for every valid request (non-empty text, catalogued font, width ≥ 1,
recognized justify mode) against the spec-modelled engine, `generate_ascii`
succeeds, the output rows (the lines of `ascii_art`) are a non-empty
sequence, and their number equals the `line_count` of the metadata. -/
theorem generate_ascii_valid_ok (catalog : List (String × Font))
    (req : FigletRequest)
    (hfont : req.font ∈ catalog.map Prod.fst)
    (htext : req.text ≠ [])
    (hwidth : 1 ≤ req.width)
    (hjust : req.justify = "left" ∨ req.justify = "center"
      ∨ req.justify = "right") :
    ∃ r, generate_ascii (catalog.map Prod.fst) (figlet_format catalog) req
        = .ok r
      ∧ splitLines r.ascii_art ≠ []
      ∧ (splitLines r.ascii_art).length = r.meta_line_count := by
  obtain ⟨f, hf⟩ := lookup_some_of_mem_keys hfont
  have he : figlet_format catalog req.text req.font req.width
      = .ok (joinLines ((splitLines req.text).flatMap
          (fun line => (composeLine f line).map (replaceHardblank f.hardblank)))) := by
    unfold figlet_format
    rw [hf]
  exact ⟨_, generate_ascii_ok_shape _ _ _ _ hfont he, splitLines_ne_nil _, rfl⟩

/-- C7 witness: the valid-request theorem at text `Hi`, font `standard`,
width 80, justify `center`, over the demo catalog. -/
theorem generate_ascii_valid_ok_witness :
    ("standard" : String) ∈ demoCatalog.map Prod.fst
    ∧ (['H', 'i'] : List Char) ≠ []
    ∧ (1 : Int) ≤ 80
    ∧ ∃ r, generate_ascii (demoCatalog.map Prod.fst) (figlet_format demoCatalog)
          { text := ['H', 'i'], font := "standard", width := 80,
            justify := "center" }
        = .ok r
      ∧ splitLines r.ascii_art ≠ []
      ∧ (splitLines r.ascii_art).length = r.meta_line_count :=
  ⟨by decide, by decide, by decide,
   generate_ascii_valid_ok demoCatalog
     { text := ['H', 'i'], font := "standard", width := 80, justify := "center" }
     (by decide) (by decide) (by decide) (Or.inr (Or.inl rfl))⟩

/-- C8: the font-list endpoint reports `count` equal to the length of the
`fonts` sequence it returns, for every catalog. -/
theorem list_fonts_count_matches (fonts : List String) :
    (list_fonts fonts).count = (list_fonts fonts).fonts.length := rfl

/-- C9: the random endpoint draws `choice(fonts)` twice — once for the font
passed to the engine (draw `j`) and once for the reported `font_used` (draw
`k`) — so the reported font need not be the render font.  With the two-font
demo catalog and draws `j = 0`, `k = 1`, the returned `ascii_art` is the
identity-font (`alpha`) rendering of `Hello World`, while `font_used` is
`beta`, whose rendering of the same phrase differs from the returned art. -/
theorem random_art_font_used_mismatch :
    random_art demoFonts2 (figlet_format demoCatalog2) 0 0 1
      = .ok { ascii_art := ['H', 'e', 'l', 'l', 'o', ' ', 'W', 'o', 'r', 'l', 'd']
              font_used := "beta"
              meta_note := "Randomly generated" }
    ∧ figlet_format demoCatalog2 (pyChoice sample_texts 0 []) "beta" 80
      ≠ .ok ['H', 'e', 'l', 'l', 'o', ' ', 'W', 'o', 'r', 'l', 'd'] := by
  constructor
  · rfl
  · decide

end DunaDraw
